import Mathlib

/-!
Verification of the Blizzards monthly ARIMA forecaster.

This file gives a shallow embedding of the Rust sources
`blizzard-wasm/src/easter.rs`, `blizzard-wasm/src/arima.rs` and
`blizzard-wasm-spec/src/lib.rs`, and proves properties of the embedded
definitions.

Modelling conventions:
* `f64` values are modelled as exact rationals (`ℚ`); `f64::sqrt` is
  modelled by `Rat.sqrt`, of which only nonnegativity is relied upon.
* Machine integers (`i32`, `u32`, `usize`) are modelled as `ℤ`/`ℕ`.
  Rust `/` and `%` on `i32` truncate toward zero, so they are modelled
  with `Int.tdiv`/`Int.tmod`.  The argument ranges reached through the
  claims keep the `u32`/`usize` arithmetic away from wrap-around, with
  the deviations noted at the definitions concerned.
* A Rust panic (out-of-bounds index) is modelled by `Option.none`;
  functions whose Rust originals can panic return `Option`.
* The `HashSet` of Easter invoice months is modelled as a `List` used
  only through membership.
-/

/-! ## easter.rs -/

/-- `easter_sunday` (easter.rs): Anonymous Gregorian algorithm.  All
arithmetic is `i32` truncated division/remainder, modelled by
`Int.tdiv`/`Int.tmod`; the final `as u32` casts are `Int.toNat`. -/
def easter_sunday (year : ℤ) : ℕ × ℕ :=
  let a := year.tmod 19
  let b := year.tdiv 100
  let c := year.tmod 100
  let d := b.tdiv 4
  let e := b.tmod 4
  let f := (b + 8).tdiv 25
  let g := (b - f + 1).tdiv 3
  let h := (19 * a + b - d - g + 15).tmod 30
  let i := c.tdiv 4
  let k := c.tmod 4
  let l := (32 + 2 * e + 2 * i - h - k).tmod 7
  let m := (a + 11 * h + 22 * l).tdiv 451
  let month := (h + l - 7 * m + 114).tdiv 31
  let day := (h + l - 7 * m + 114).tmod 31 + 1
  (month.toNat, day.toNat)

/-- `easter_invoice_month` (easter.rs): three calendar months before
Easter Sunday; the day is discarded. -/
def easter_invoice_month (easter_year : ℤ) : ℤ × ℕ :=
  let month := (easter_sunday easter_year).1
  if month ≤ 3 then (easter_year - 1, month + 9) else (easter_year, month - 3)

/-- Cursor loop of `create_easter_regressor` (easter.rs): walk forward
month by month from `(y, mth)`, emitting 1.0 on invoice months; a month
value of 13 contributes one non-invoice cell and then wraps to January
of the next year, exactly as the Rust cursor does. -/
def easterRegressorLoop (invoice_months : List (ℤ × ℕ)) : ℕ → ℤ → ℕ → List ℚ
  | 0, _, _ => []
  | len + 1, y, mth =>
    (if (y, mth) ∈ invoice_months then (1 : ℚ) else 0) ::
      (if 12 < mth + 1 then easterRegressorLoop invoice_months len (y + 1) 1
       else easterRegressorLoop invoice_months len y (mth + 1))

/-- `create_easter_regressor` (easter.rs).  The invoice-month set is
collected for the years `start_year ..= start_year + length/12 + 3`. -/
def create_easter_regressor (start_year : ℤ) (start_month : ℕ) (length : ℕ) : List ℚ :=
  let end_year := start_year + (length : ℤ).tdiv 12 + 3
  let invoice_months :=
    (List.range (end_year - start_year + 1).toNat).map
      (fun j => easter_invoice_month (start_year + j))
  easterRegressorLoop invoice_months length start_year start_month

/-! ## arima.rs helper functions -/

/-- `mean` (arima.rs). -/
def mean (data : List ℚ) : ℚ :=
  if data = [] then 0 else data.sum / (data.length : ℚ)

/-- `regress_out_exogenous` (arima.rs): mean-difference regression for a
binary regressor; returns `(adjusted_series, coefficient)`.  Rust zips
the two slices (stopping at the shorter) for the partition, and its
adjustment loop indexes `residuals[i]` for `i < exog.len()`; positions of
the series not covered by `exog` are unchanged, which the `getD` default
`0 ≤ 1/2` reproduces.  (If `exog` were longer than `series` with an
indicator set past the end, Rust would panic; no caller does this.) -/
def regress_out_exogenous (series exog : List ℚ) : List ℚ × ℚ :=
  let with_exog := ((series.zip exog).filter (fun yx => decide (1/2 < yx.2))).map (fun yx => yx.1)
  let without_exog := ((series.zip exog).filter (fun yx => decide (yx.2 ≤ 1/2))).map (fun yx => yx.1)
  let coefficient :=
    if with_exog ≠ [] ∧ without_exog ≠ [] then mean with_exog - mean without_exog else 0
  ((List.range series.length).map (fun i =>
      if 1/2 < exog.getD i 0 then series.getD i 0 - coefficient else series.getD i 0),
    coefficient)

/-- `calculate_seasonal_factors` (arima.rs).  The Rust accumulation
loops over the series filling `sums`/`counts` per position-in-cycle; the
class of position `k` is expressed here directly as the strictly
positive values at indices `i` with `i % period = k`. -/
def calculate_seasonal_factors (series : List ℚ) (period : ℕ) : List ℚ :=
  let positives := series.filter (fun x => decide (0 < x))
  let overall_mean := positives.sum / ((max positives.length 1 : ℕ) : ℚ)
  (List.range period).map (fun k =>
    let cls := ((List.range series.length).filter (fun i =>
        decide (i % period = k ∧ 0 < series.getD i 0))).map (fun i => series.getD i 0)
    if cls.length ≠ 0 then (cls.sum / (cls.length : ℚ)) / overall_mean else 1)

/-- `deseasonalize` (arima.rs): divide by the factor when it is
positive, else leave the value unchanged. -/
def deseasonalize (series factors : List ℚ) : List ℚ :=
  (List.range series.length).map (fun i =>
    let factor := factors.getD (i % factors.length) 0
    if 0 < factor then series.getD i 0 / factor else series.getD i 0)

/-- `reseasonalize` (arima.rs). -/
def reseasonalize (series factors : List ℚ) (start_idx : ℕ) : List ℚ :=
  (List.range series.length).map (fun i =>
    series.getD i 0 * factors.getD ((start_idx + i) % factors.length) 0)

/-- One pass of first differencing: `(1..len).map(|i| s[i] - s[i-1])`. -/
def diffOnce (series : List ℚ) : List ℚ :=
  List.zipWith (fun x y => x - y) series.tail series

/-- `difference` (arima.rs): `d` passes of first differencing. -/
def difference (series : List ℚ) : ℕ → List ℚ
  | 0 => series
  | d + 1 => difference (diffOnce series) d

/-- Seeded cumulative sum, the inner loop of `undifference`:
`out[0] = seed + in[0]`, `out[i] = out[i-1] + in[i]`. -/
def cumsumFrom (seed : ℚ) : List ℚ → List ℚ
  | [] => []
  | x :: xs => (seed + x) :: cumsumFrom (seed + x) xs

/-- Pass loop of `undifference` (arima.rs).  Each pass reads the anchor
`original[original.len() - 1 - (d - ord - 1)]` and seeds a cumulative
sum of the working vector.  Rust panics when the anchor index is out of
bounds (`original.len() < d - ord`, where the `usize` subtraction would
wrap to a huge index) or when the working vector is empty
(`result[0]`); both are modelled by `none`. -/
def undiffLoop (original : List ℚ) (d : ℕ) (ord : ℕ) (result : List ℚ) : Option (List ℚ) :=
  if h : ord < d then
    if d - ord ≤ original.length ∧ result ≠ [] then
      undiffLoop original d (ord + 1)
        (cumsumFrom (original.getD (original.length - 1 - (d - ord - 1)) 0) result)
    else none
  else some result
termination_by d - ord

/-- `undifference` (arima.rs): returns the input for `d = 0`, otherwise
runs `d` seeded cumulative-sum passes. -/
def undifference (differenced original : List ℚ) (d : ℕ) : Option (List ℚ) :=
  if d = 0 then some differenced else undiffLoop original d 0 differenced

/-- `autocorrelation` (arima.rs): lag-`L` sums normalised by
`n × variance`, with a degenerate branch `[1, 0, …]` when the variance
is below `1e-10`.  The Rust sum over `i ∈ lag..n` of `s[i]·s[i-lag]` is
written with `k = i - lag`.  (On an empty series Rust produces NaNs via
`0.0/0.0`; over `ℚ` the division yields `0` and the degenerate branch is
taken instead.  No claim below depends on that corner.) -/
def autocorrelation (series : List ℚ) (max_lag : ℕ) : List ℚ :=
  let n := series.length
  let variance := (series.map (fun x => x * x)).sum / (n : ℚ)
  if variance < 1 / 10000000000 then
    1 :: List.replicate max_lag 0
  else
    (List.range (max_lag + 1)).map (fun lag =>
      ((List.range (n - lag)).map (fun k => series.getD (lag + k) 0 * series.getD k 0)).sum
        / ((n : ℚ) * variance))

/-- Levinson–Durbin iteration of `solve_yule_walker` (arima.rs), indexed
by fuel.  The Rust loop runs `i` from `1` to `p-1` and breaks early when
`v` drops below `1e-10`, keeping the coefficients written so far; a fuel
of at least `p` makes the fuel pattern immaterial.  `phi[i] = num/v` is
set first and the entries `j < i` are then rewritten from the saved
previous coefficients, exactly as in the source. -/
def ywGo (r : List ℚ) (p : ℕ) : ℕ → ℕ → List ℚ → ℚ → List ℚ
  | 0, _, phi, _ => phi
  | fuel + 1, i, phi, v =>
    if i < p then
      let num := r.getD (i + 1) 0 - ((List.range i).map (fun j => phi.getD j 0 * r.getD (i - j) 0)).sum
      let phii := num / v
      let phi1 := (List.range phi.length).map (fun j =>
        if j < i then phi.getD j 0 - phii * phi.getD (i - 1 - j) 0
        else if j = i then phii
        else phi.getD j 0)
      let v1 := v * (1 - phii * phii)
      if v1 < 1 / 10000000000 then phi1 else ywGo r p fuel (i + 1) phi1 v1
    else phi

/-- `solve_yule_walker` (arima.rs): `p = autocorr.len() - 1`, returns
`[]` when `p = 0`, else initialises `phi[0] = r[1]`, `v = 1 - phi[0]²`
and runs the Levinson–Durbin loop.  (Rust on an empty input would make
`p` wrap around and abort; the `length ≤ 1` guard covers that
unreachable corner together with the `p = 0` early return.) -/
def solve_yule_walker (autocorr : List ℚ) : List ℚ :=
  if autocorr.length ≤ 1 then []
  else
    let p := autocorr.length - 1
    let r1 := autocorr.getD 1 0
    ywGo autocorr p p 1 ((List.replicate p (0 : ℚ)).set 0 r1) (1 - r1 * r1)

/-- `calculate_residuals` (arima.rs): residual against the partial AR
prediction `Σ_{j < i} ar[j]·s[i-j-1]`. -/
def calculate_residuals (series ar_coeffs : List ℚ) : List ℚ :=
  (List.range series.length).map (fun i =>
    series.getD i 0 -
      ((List.range ar_coeffs.length).map (fun j =>
        if j < i then ar_coeffs.getD j 0 * series.getD (i - j - 1) 0 else 0)).sum)

/-- `estimate_ma_coefficients` (arima.rs): `0.5 ×` the residual
autocorrelation at lags `1..=q`. -/
def estimate_ma_coefficients (residuals : List ℚ) (q : ℕ) : List ℚ :=
  if q = 0 then []
  else
    let ac := autocorrelation residuals q
    (List.range q).map (fun i => ac.getD (i + 1) 0 * (1 / 2))

/-! ## The Arima model -/

/-- The `Arima` struct (arima.rs). -/
structure Arima where
  p : ℕ
  d : ℕ
  q : ℕ
  seasonal_period : ℕ
  ar_coeffs : List ℚ
  ma_coeffs : List ℚ
  seasonal_factors : List ℚ
  intercept : ℚ
  original_series : List ℚ
  differenced_series : List ℚ
  residuals : List ℚ
  exog_coeffs : List ℚ
  exog_data : Option (List ℚ)
  deriving DecidableEq

/-- `Arima::new` (arima.rs). -/
def Arima.new (p d q seasonal_period : ℕ) : Arima :=
  { p := p, d := d, q := q, seasonal_period := seasonal_period,
    ar_coeffs := [], ma_coeffs := [], seasonal_factors := [],
    intercept := 0, original_series := [], differenced_series := [],
    residuals := [], exog_coeffs := [], exog_data := none }

/-- `Arima::fit_with_exog` (arima.rs): regress out the exogenous effect
when present (storing a single coefficient), then seasonal factors,
deseasonalisation, differencing, intercept/centering, Yule–Walker AR
coefficients, residuals and MA coefficients. -/
def Arima.fit_with_exog (m : Arima) (series : List ℚ) (exog : Option (List ℚ)) : Arima :=
  let adjc : List ℚ × List ℚ :=
    match exog with
    | some e =>
      let r := regress_out_exogenous series e
      (r.1, [r.2])
    | none => (series, [])
  let sf := calculate_seasonal_factors adjc.1 m.seasonal_period
  let deseasonalized := deseasonalize adjc.1 sf
  let diffd := difference deseasonalized m.d
  let icpt := mean diffd
  let centered := diffd.map (fun x => x - icpt)
  let ar := if m.p ≠ 0 then solve_yule_walker (autocorrelation centered m.p) else []
  let res := calculate_residuals centered ar
  let ma := if m.q ≠ 0 then estimate_ma_coefficients res m.q else []
  { m with
    original_series := series,
    exog_data := exog,
    exog_coeffs := adjc.2,
    seasonal_factors := sf,
    intercept := icpt,
    differenced_series := diffd,
    ar_coeffs := ar,
    ma_coeffs := ma,
    residuals := res }

/-- `Arima::fit` (arima.rs). -/
def Arima.fit (m : Arima) (series : List ℚ) : Arima :=
  m.fit_with_exog series none

/-- One step of the forecast recursion in `Arima::forecast_with_exog`:
intercept plus AR and MA contributions.  The Rust MA guard computes
`res_idx = extended_residuals.len() - 1 - i` in `usize` (wrapping to a
huge value when `i ≥ len`, which then fails `res_idx < residuals.len()`);
the conjunction `i < ext_res.length ∧ …` reproduces that outcome for all
in-memory sizes. -/
def forecastStep (m : Arima) (ext ext_res : List ℚ) : ℚ :=
  let ar_sum := ((List.range m.ar_coeffs.length).map (fun i =>
    if i < ext.length
    then m.ar_coeffs.getD i 0 * (ext.getD (ext.length - 1 - i) 0 - m.intercept)
    else 0)).sum
  let ma_sum := ((List.range m.ma_coeffs.length).map (fun i =>
    if i < ext_res.length ∧ ext_res.length - 1 - i < m.residuals.length
    then m.ma_coeffs.getD i 0 * ext_res.getD (ext_res.length - 1 - i) 0
    else 0)).sum
  m.intercept + ar_sum + ma_sum

/-- The `for _ in 0..steps` extension loop of `forecast_with_exog`:
append the prediction to the working series and `0.0` to the working
residuals. -/
def extendLoop (m : Arima) : ℕ → List ℚ × List ℚ → List ℚ × List ℚ
  | 0, s => s
  | k + 1, s =>
    let pred := forecastStep m s.1 s.2
    extendLoop m k (s.1 ++ [pred], s.2 ++ [0])

/-- `Arima::forecast_with_exog` (arima.rs): extend the differenced
series `steps` times, undifference against the deseasonalised original
series, reseasonalise from `original.len() % seasonal_period`, add the
exogenous effect when future values are given and the stored
coefficient list is non-empty, and clamp at zero.  `none` models the
panic inside `undifference`. -/
def Arima.forecast_with_exog (m : Arima) (steps : ℕ) (future_exog : Option (List ℚ)) :
    Option (List ℚ) :=
  let ext := (extendLoop m steps (m.differenced_series, m.residuals)).1
  let forecast_diff := ext.drop m.differenced_series.length
  let deseasonalized := (List.range m.original_series.length).map (fun i =>
    let factor := m.seasonal_factors.getD (i % m.seasonal_period) 0
    if 0 < factor then m.original_series.getD i 0 / factor else m.original_series.getD i 0)
  (undifference forecast_diff deseasonalized m.d).map (fun forecast_deseas =>
    let start_month := m.original_series.length % m.seasonal_period
    let fc := reseasonalize forecast_deseas m.seasonal_factors start_month
    let fc2 :=
      match future_exog with
      | some xf =>
        if m.exog_coeffs ≠ [] then
          (List.range fc.length).map (fun s =>
            if s < xf.length then fc.getD s 0 + m.exog_coeffs.getD 0 0 * xf.getD s 0
            else fc.getD s 0)
        else fc
      | none => fc
    fc2.map (fun x => max x 0))

/-- `Arima::forecast` (arima.rs). -/
def Arima.forecast (m : Arima) (steps : ℕ) : Option (List ℚ) :=
  m.forecast_with_exog steps none

/-- The z-score table of `Arima::confidence_intervals` (arima.rs). -/
def zscore (confidence : ℚ) : ℚ :=
  if |confidence - 99/100| < 1/1000 then 2576/1000
  else if |confidence - 95/100| < 1/1000 then 196/100
  else if |confidence - 90/100| < 1/1000 then 1645/1000
  else if |confidence - 80/100| < 1/1000 then 128/100
  else 196/100

/-- The residual standard error `se` of `confidence_intervals`
(arima.rs): `sqrt(Σ r² / max(len, 1))`. -/
def residualSE (m : Arima) : ℚ :=
  Rat.sqrt ((m.residuals.map (fun r => r * r)).sum / ((max m.residuals.length 1 : ℕ) : ℚ))

/-- The half-width `z × horizon_se × seasonal_scale` at forecast step
`i`, with `horizon_se = se × sqrt(1 + 0.1·i)` and the seasonal factor
at position `(original.len() + i) % seasonal_period`. -/
def intervalWidth (m : Arima) (z : ℚ) (i : ℕ) : ℚ :=
  z * (residualSE m * Rat.sqrt (1 + (i : ℚ) / 10)) *
    m.seasonal_factors.getD ((m.original_series.length + i) % m.seasonal_period) 0

/-- `Arima::confidence_intervals` (arima.rs): recomputes the point
forecast via `forecast` (without exogenous values), and builds the band
`max(f - interval, 0)` / `f + interval` from the residual RMS, horizon
factor and seasonal factor.  `f64::sqrt` is modelled by `Rat.sqrt`
(only its nonnegativity matters to the claims). -/
def Arima.confidence_intervals (m : Arima) (steps : ℕ) (confidence : ℚ) :
    Option (List ℚ × List ℚ) :=
  (m.forecast steps).map (fun fc =>
    ((List.range fc.length).map (fun (i : ℕ) =>
        max (fc.getD i 0 - intervalWidth m (zscore confidence) i) 0),
     (List.range fc.length).map (fun (i : ℕ) =>
        fc.getD i 0 + intervalWidth m (zscore confidence) i)))

/-! ## fit_and_forecast (arima.rs) -/

/-- The `ForecastResult` struct (arima.rs). -/
structure ForecastResult where
  forecast : List ℚ
  lower : List ℚ
  upper : List ℚ
  seasonal_factors : List ℚ
  easter_coefficient : ℚ
  ar_coefficients : List ℚ
  ma_coefficients : List ℚ
  intercept : ℚ
  deriving DecidableEq

/-- The Easter pre-adjustment performed inside `fit_and_forecast`
(arima.rs, lines 462-468): with `use_easter` the regressor for the
training window is built and regressed out, else the series is kept and
the coefficient is `0.0`.  Returns `(easter_coef, adjusted_series)`. -/
def easterAdjust (series : List ℚ) (start_year : ℤ) (start_month : ℕ) (use_easter : Bool) :
    ℚ × List ℚ :=
  if use_easter then
    let regressor := create_easter_regressor start_year start_month series.length
    let r := regress_out_exogenous series regressor
    (r.2, r.1)
  else (0, series)

/-- The model fitted inside `fit_and_forecast` (arima.rs, lines
460-470): `Arima::new(2, 1, 1, 12)` fitted on the adjusted series via
`model.fit(&adjusted_series)` — i.e. with `exog = None`. -/
def pipelineModel (series : List ℚ) (start_year : ℤ) (start_month : ℕ) (use_easter : Bool) :
    Arima :=
  (Arima.new 2 1 1 12).fit (easterAdjust series start_year start_month use_easter).2

/-- The future Easter regressor of `fit_and_forecast` (arima.rs, lines
473-479).  `start_month` is a `u32` in Rust; requests keep it in
`1..=12` so the `start_month - 1` subtraction never wraps and `ℕ`
subtraction is faithful. -/
def futureEasterRegressor (series_len : ℕ) (start_year : ℤ) (start_month : ℕ)
    (forecast_months : ℕ) : List ℚ :=
  let last_month := (start_month - 1 + series_len) % 12 + 1
  let years_elapsed := (start_month - 1 + series_len) / 12
  create_easter_regressor (start_year + years_elapsed) (last_month + 1) forecast_months

/-- `fit_and_forecast` (arima.rs): the main pipeline entry point.
`none` models a panic in either the forecast or the interval path. -/
def fit_and_forecast (series : List ℚ) (start_year : ℤ) (start_month : ℕ)
    (forecast_months : ℕ) (use_easter : Bool) : Option ForecastResult :=
  let model := pipelineModel series start_year start_month use_easter
  let fcOpt :=
    if use_easter then
      model.forecast_with_exog forecast_months
        (some (futureEasterRegressor series.length start_year start_month forecast_months))
    else model.forecast forecast_months
  match fcOpt, model.confidence_intervals forecast_months (80/100) with
  | some fc, some lu =>
    some { forecast := fc, lower := lu.1, upper := lu.2,
           seasonal_factors := model.seasonal_factors,
           easter_coefficient := (easterAdjust series start_year start_month use_easter).1,
           ar_coefficients := model.ar_coeffs,
           ma_coefficients := model.ma_coeffs,
           intercept := model.intercept }
  | _, _ => none

/-! ## lib.rs boundary -/

/-- The `ForecastInput` struct (lib.rs) with its serde defaults. -/
structure ForecastInput where
  series : List ℚ
  start_year : ℤ
  start_month : ℕ
  forecast_months : ℕ
  p : ℕ := 2
  d : ℕ := 1
  q : ℕ := 1
  seasonal_period : ℕ := 12
  use_easter_regressor : Bool := true
  deriving DecidableEq

/-- The `ForecastOutput` struct (lib.rs). -/
structure ForecastOutput where
  forecast : List ℚ
  lower : List ℚ
  upper : List ℚ
  seasonal_factors : List ℚ
  easter_coefficient : ℚ
  ar_coefficients : List ℚ
  ma_coefficients : List ℚ
  intercept : ℚ
  deriving DecidableEq

/-- A response of the `forecast` entry point (lib.rs): either the
single-field error object or the success output. -/
inductive ForecastResponse where
  | error (message : String)
  | ok (output : ForecastOutput)
  deriving DecidableEq

/-- The `forecast` WASM entry point (lib.rs), after JSON parsing:
validate the series length against the requested orders, then run
`fit_and_forecast` (which itself uses the fixed orders `(2,1,1,12)`).
`none` models a panic inside the pipeline. -/
def forecast (input : ForecastInput) : Option ForecastResponse :=
  if input.series.length < input.p + input.d + input.q + input.seasonal_period then
    some (ForecastResponse.error "Series too short for specified ARIMA parameters")
  else
    (fit_and_forecast input.series input.start_year input.start_month input.forecast_months
        input.use_easter_regressor).map
      (fun r => ForecastResponse.ok
        { forecast := r.forecast, lower := r.lower, upper := r.upper,
          seasonal_factors := r.seasonal_factors,
          easter_coefficient := r.easter_coefficient,
          ar_coefficients := r.ar_coefficients,
          ma_coefficients := r.ma_coefficients,
          intercept := r.intercept })

/-! ## Concrete requests used by witnesses and counterexamples -/

/-- A 16-month all-ones series: the shortest admissible series for the
default orders `p+d+q+S = 16`. -/
def onesSeries : List ℚ := List.replicate 16 1

/-- All-ones series of length 17, admissible for `p = 3`. -/
def onesSeries17 : List ℚ := List.replicate 17 1

/-- Series for the Easter add-back check: all ones except a value of 2
at index 12 (January 2025, the Easter-2025 invoice month when the
series starts January 2024). -/
def c1Series : List ℚ := (List.replicate 16 (1 : ℚ)).set 12 2

/-- Request exercising the dead exogenous add-back: Easter regressor
enabled, 12-month horizon. -/
def c1Input : ForecastInput :=
  { series := c1Series, start_year := 2024, start_month := 1, forecast_months := 12 }

/-- Expected response value for `c1Input`. -/
def c1Output : ForecastOutput :=
  { forecast := List.replicate 12 1, lower := List.replicate 12 1,
    upper := List.replicate 12 1, seasonal_factors := List.replicate 12 1,
    easter_coefficient := 1, ar_coefficients := [0, 0], ma_coefficients := [0],
    intercept := 0 }

/-- Valid request (defaults, no Easter) with `forecast_months = 0`. -/
def c3Input : ForecastInput :=
  { series := onesSeries, start_year := 2024, start_month := 1, forecast_months := 0,
    use_easter_regressor := false }

/-- Valid request with a requested AR order `p = 3`. -/
def c2BadInput : ForecastInput :=
  { series := onesSeries17, start_year := 2022, start_month := 1, forecast_months := 1,
    p := 3, use_easter_regressor := false }

/-- Response value for `c2BadInput`: the model is `ARIMA(2,1,1)`
regardless of the requested `p = 3`. -/
def c2BadOutput : ForecastOutput :=
  { forecast := [1], lower := [1], upper := [1],
    seasonal_factors := List.replicate 12 1, easter_coefficient := 0,
    ar_coefficients := [0, 0], ma_coefficients := [0], intercept := 0 }

/-- Valid default-orders request without Easter, horizon 1. -/
def c2Input : ForecastInput :=
  { series := onesSeries, start_year := 2024, start_month := 1, forecast_months := 1,
    use_easter_regressor := false }

/-- Response value for `c2Input`. -/
def c2Output : ForecastOutput :=
  { forecast := [1], lower := [1], upper := [1],
    seasonal_factors := List.replicate 12 1, easter_coefficient := 0,
    ar_coefficients := [0, 0], ma_coefficients := [0], intercept := 0 }

/-- Valid default-orders request without Easter, horizon 12. -/
def c5Input : ForecastInput :=
  { series := onesSeries, start_year := 2024, start_month := 1, forecast_months := 12,
    use_easter_regressor := false }

/-- Response value for `c5Input`. -/
def c5Output : ForecastOutput :=
  { forecast := List.replicate 12 1, lower := List.replicate 12 1,
    upper := List.replicate 12 1, seasonal_factors := List.replicate 12 1,
    easter_coefficient := 0, ar_coefficients := [0, 0], ma_coefficients := [0],
    intercept := 0 }

/-! ## List indexing helpers -/

/-- Indexing a `range`-driven map below its length evaluates the body. -/
theorem rangeMap_getD (f : ℕ → ℚ) (n i : ℕ) (h : i < n) (dflt : ℚ) :
    ((List.range n).map f).getD i dflt = f i := by
  rw [List.getD_eq_getElem?_getD, List.getElem?_map, List.getElem?_range h]
  rfl

/-- Indexing a mapped list below its length evaluates the body. -/
theorem map_getD_lt (f : ℚ → ℚ) (l : List ℚ) (i : ℕ) (h : i < l.length) (d1 d2 : ℚ) :
    (l.map f).getD i d1 = f (l.getD i d2) := by
  rw [List.getD_eq_getElem?_getD, List.getD_eq_getElem?_getD, List.getElem?_map,
    List.getElem?_eq_getElem h]
  rfl

/-- An in-bounds `getD` is a member of the list. -/
theorem getD_mem_of_lt (l : List ℚ) (i : ℕ) (h : i < l.length) (dflt : ℚ) :
    l.getD i dflt ∈ l := by
  rw [List.getD_eq_getElem?_getD, List.getElem?_eq_getElem h]
  exact List.getElem_mem h

/-- `getD` on a list of zeros is zero at every index. -/
theorem replicate_zero_getD (n i : ℕ) : (List.replicate n (0 : ℚ)).getD i 0 = 0 := by
  induction n generalizing i with
  | zero => rfl
  | succ n ih =>
    cases i with
    | zero => rfl
    | succ i => exact ih i

/-! ## Structural lemmas about the embedded pipeline -/

/-- `cumsumFrom` preserves length. -/
theorem cumsumFrom_length (seed : ℚ) (l : List ℚ) : (cumsumFrom seed l).length = l.length := by
  induction l generalizing seed with
  | nil => rfl
  | cons x xs ih => simp [cumsumFrom, ih]

/-- A successful `undiffLoop` run preserves the working length. -/
theorem undiffLoop_length (original : List ℚ) (d : ℕ) :
    ∀ (n ord : ℕ), d - ord = n → ∀ (result out : List ℚ),
      undiffLoop original d ord result = some out → out.length = result.length := by
  intro n
  induction n with
  | zero =>
    intro ord hn result out hout
    rw [undiffLoop, dif_neg (by omega)] at hout
    cases hout
    rfl
  | succ n ih =>
    intro ord hn result out hout
    rw [undiffLoop, dif_pos (by omega)] at hout
    split_ifs at hout with hok
    have := ih (ord + 1) (by omega) _ out hout
    rw [this, cumsumFrom_length]

/-- A successful `undifference` preserves the forecast length. -/
theorem undifference_length (differenced original : List ℚ) (d : ℕ) (out : List ℚ)
    (h : undifference differenced original d = some out) : out.length = differenced.length := by
  unfold undifference at h
  split_ifs at h with hd
  · cases h; rfl
  · exact undiffLoop_length original d (d - 0) 0 rfl differenced out h

/-- `extendLoop` appends exactly one value per step. -/
theorem extendLoop_fst_length (m : Arima) (k : ℕ) :
    ∀ s : List ℚ × List ℚ, ((extendLoop m k s).1).length = s.1.length + k := by
  induction k with
  | zero => intro s; rfl
  | succ k ih =>
    intro s
    rw [extendLoop, ih]
    simp
    try omega

/-- `reseasonalize` preserves length. -/
theorem reseasonalize_length (series factors : List ℚ) (start_idx : ℕ) :
    (reseasonalize series factors start_idx).length = series.length := by
  simp [reseasonalize]

/-- `calculate_seasonal_factors` returns one factor per position in the
cycle. -/
theorem calculate_seasonal_factors_length (series : List ℚ) (period : ℕ) :
    (calculate_seasonal_factors series period).length = period := by
  simp [calculate_seasonal_factors]

/-- `autocorrelation` returns `max_lag + 1` values on both branches. -/
theorem autocorrelation_length (series : List ℚ) (max_lag : ℕ) :
    (autocorrelation series max_lag).length = max_lag + 1 := by
  simp only [autocorrelation]
  split_ifs <;> simp

/-- Structure of a successful `forecast_with_exog`: the result is a
zero-clamped list of length `steps`. -/
theorem forecast_with_exog_elim (m : Arima) (steps : ℕ) (fx : Option (List ℚ)) (fc : List ℚ)
    (h : m.forecast_with_exog steps fx = some fc) :
    ∃ l : List ℚ, fc = l.map (fun x => max x 0) ∧ l.length = steps := by
  simp only [Arima.forecast_with_exog, Option.map_eq_some'] at h
  obtain ⟨fdeseas, hfd, hfc⟩ := h
  have hlen : fdeseas.length = steps := by
    have h1 := undifference_length _ _ _ _ hfd
    rw [h1, List.length_drop, extendLoop_fst_length]
    dsimp only
    omega
  cases fx with
  | none =>
    dsimp only at hfc
    refine ⟨_, hfc.symm, ?_⟩
    rw [reseasonalize_length, hlen]
  | some xf =>
    dsimp only at hfc
    by_cases hex : m.exog_coeffs ≠ []
    · rw [if_pos hex] at hfc
      refine ⟨_, hfc.symm, ?_⟩
      simp [reseasonalize_length, hlen]
    · rw [if_neg hex] at hfc
      refine ⟨_, hfc.symm, ?_⟩
      rw [reseasonalize_length, hlen]

/-- A successful forecast has exactly `steps` entries. -/
theorem forecast_with_exog_length (m : Arima) (steps : ℕ) (fx : Option (List ℚ)) (fc : List ℚ)
    (h : m.forecast_with_exog steps fx = some fc) : fc.length = steps := by
  obtain ⟨l, rfl, hl⟩ := forecast_with_exog_elim m steps fx fc h
  simp [hl]

/-- Every entry of a successful forecast is nonnegative (the final
clamp). -/
theorem forecast_with_exog_getD_nonneg (m : Arima) (steps : ℕ) (fx : Option (List ℚ))
    (fc : List ℚ) (h : m.forecast_with_exog steps fx = some fc) (i : ℕ) (hi : i < fc.length) :
    0 ≤ fc.getD i 0 := by
  obtain ⟨l, rfl, hl⟩ := forecast_with_exog_elim m steps fx fc h
  rw [List.length_map] at hi
  rw [map_getD_lt _ _ _ hi 0 0]
  exact le_max_right _ 0

/-- When the stored exogenous coefficient list is empty, the future
regressor is ignored and `forecast_with_exog` agrees with `forecast`. -/
theorem forecast_with_exog_of_exog_nil (m : Arima) (steps : ℕ) (fx : Option (List ℚ))
    (h : m.exog_coeffs = []) : m.forecast_with_exog steps fx = m.forecast steps := by
  cases fx with
  | none => rfl
  | some xf =>
    unfold Arima.forecast Arima.forecast_with_exog
    simp [h]

/-- The z-score table is positive on every branch. -/
theorem zscore_pos (confidence : ℚ) : 0 < zscore confidence := by
  unfold zscore
  split_ifs <;> norm_num

/-- The interval half-width is nonnegative whenever the z-score and the
seasonal factor at the forecast position are. -/
theorem intervalWidth_nonneg (m : Arima) (z : ℚ) (i : ℕ) (hz : 0 ≤ z)
    (hsf : 0 ≤ m.seasonal_factors.getD ((m.original_series.length + i) % m.seasonal_period) 0) :
    0 ≤ intervalWidth m z i := by
  unfold intervalWidth
  have hse : 0 ≤ residualSE m := Rat.sqrt_nonneg _
  exact mul_nonneg (mul_nonneg hz (mul_nonneg hse (Rat.sqrt_nonneg _))) hsf

/-- Structure of a successful `confidence_intervals`: both bands are
indexed transforms of the recomputed (exog-free) forecast. -/
theorem confidence_intervals_elim (m : Arima) (steps : ℕ) (conf : ℚ) (lu : List ℚ × List ℚ)
    (h : m.confidence_intervals steps conf = some lu) :
    ∃ fc, m.forecast steps = some fc ∧
      lu.1 = (List.range fc.length).map (fun (i : ℕ) =>
        max (fc.getD i 0 - intervalWidth m (zscore conf) i) 0) ∧
      lu.2 = (List.range fc.length).map (fun (i : ℕ) =>
        fc.getD i 0 + intervalWidth m (zscore conf) i) := by
  simp only [Arima.confidence_intervals, Option.map_eq_some'] at h
  obtain ⟨fc, hfc, hlu⟩ := h
  exact ⟨fc, hfc, by rw [← hlu], by rw [← hlu]⟩

/-- `ywGo` preserves the coefficient-vector length. -/
theorem ywGo_length (r : List ℚ) (p : ℕ) :
    ∀ (fuel i : ℕ) (phi : List ℚ) (v : ℚ), (ywGo r p fuel i phi v).length = phi.length := by
  intro fuel
  induction fuel with
  | zero => intro i phi v; rfl
  | succ fuel ih =>
    intro i phi v
    rw [ywGo]
    dsimp only
    split_ifs
    · simp
    · rw [ih]
      simp
    · rfl

/-- `solve_yule_walker` on an input of length `p + 1 ≥ 2` returns `p`
coefficients. -/
theorem solve_yule_walker_length (autocorr : List ℚ) (h : 2 ≤ autocorr.length) :
    (solve_yule_walker autocorr).length = autocorr.length - 1 := by
  unfold solve_yule_walker
  rw [if_neg (by omega)]
  dsimp only
  rw [ywGo_length]
  simp

/-- The fields of a fitted model (fit with no exogenous data). -/
theorem fit_fields (m : Arima) (series : List ℚ) :
    (m.fit series).exog_coeffs = [] ∧
    (m.fit series).seasonal_period = m.seasonal_period ∧
    (m.fit series).original_series = series ∧
    (m.fit series).seasonal_factors = calculate_seasonal_factors series m.seasonal_period := by
  refine ⟨rfl, rfl, rfl, rfl⟩

/-- A model fitted with `p = 2` carries exactly two AR coefficients. -/
theorem fit_ar_length (m : Arima) (series : List ℚ) (hp : m.p = 2) :
    ((m.fit series).ar_coeffs).length = 2 := by
  show (if m.p ≠ 0 then solve_yule_walker (autocorrelation _ m.p) else []).length = 2
  rw [hp, if_pos (by norm_num)]
  rw [solve_yule_walker_length _ (by rw [autocorrelation_length]; omega), autocorrelation_length]

/-- A model fitted with `q = 1` carries exactly one MA coefficient. -/
theorem fit_ma_length (m : Arima) (series : List ℚ) (hq : m.q = 1) :
    ((m.fit series).ma_coeffs).length = 1 := by
  show (if m.q ≠ 0 then estimate_ma_coefficients _ m.q else []).length = 1
  rw [hq, if_pos (by norm_num)]
  unfold estimate_ma_coefficients
  rw [if_neg (by norm_num)]
  simp

/-- The pipeline model stores no exogenous coefficient: `fit_and_forecast`
pre-adjusts the series itself and calls `fit` without a regressor. -/
theorem pipelineModel_exog_coeffs (series : List ℚ) (sy : ℤ) (sm : ℕ) (ue : Bool) :
    (pipelineModel series sy sm ue).exog_coeffs = [] := rfl

/-- The pipeline model keeps the constructed seasonal period 12. -/
theorem pipelineModel_seasonal_period (series : List ℚ) (sy : ℤ) (sm : ℕ) (ue : Bool) :
    (pipelineModel series sy sm ue).seasonal_period = 12 := rfl

/-- The pipeline model's seasonal factors come from the adjusted series
with period 12. -/
theorem pipelineModel_seasonal_factors (series : List ℚ) (sy : ℤ) (sm : ℕ) (ue : Bool) :
    (pipelineModel series sy sm ue).seasonal_factors =
      calculate_seasonal_factors (easterAdjust series sy sm ue).2 12 := rfl

/-- The pipeline model has two AR coefficients. -/
theorem pipelineModel_ar_length (series : List ℚ) (sy : ℤ) (sm : ℕ) (ue : Bool) :
    ((pipelineModel series sy sm ue).ar_coeffs).length = 2 :=
  fit_ar_length _ _ rfl

/-- The pipeline model has one MA coefficient. -/
theorem pipelineModel_ma_length (series : List ℚ) (sy : ℤ) (sm : ℕ) (ue : Bool) :
    ((pipelineModel series sy sm ue).ma_coeffs).length = 1 :=
  fit_ma_length _ _ rfl

/-- Every factor produced by `calculate_seasonal_factors` is strictly
positive: positions without positive observations get exactly `1`, and
the other positions get a ratio of two strictly positive means. -/
theorem calculate_seasonal_factors_getD_pos (series : List ℚ) (period k : ℕ) (hk : k < period) :
    0 < (calculate_seasonal_factors series period).getD k 0 := by
  unfold calculate_seasonal_factors
  rw [rangeMap_getD _ _ _ hk]
  dsimp only
  by_cases hc : (((List.range series.length).filter (fun i =>
      decide (i % period = k ∧ 0 < series.getD i 0))).map (fun i => series.getD i 0)).length ≠ 0
  · rw [if_pos hc]
    set cls := ((List.range series.length).filter (fun i =>
      decide (i % period = k ∧ 0 < series.getD i 0))).map (fun i => series.getD i 0) with hcls
    have hmem : ∀ x ∈ cls, 0 < x := by
      intro x hx
      rw [hcls] at hx
      obtain ⟨i, hi, hxi⟩ := List.mem_map.mp hx
      have h2 := (List.mem_filter.mp hi).2
      have h3 := of_decide_eq_true h2
      rw [← hxi]
      exact h3.2
    have hne : cls ≠ [] := by
      intro hnil
      rw [hnil] at hc
      simp at hc
    have hsum : 0 < cls.sum := List.sum_pos cls hmem hne
    have hlen : 0 < (cls.length : ℚ) := by
      exact_mod_cast Nat.pos_of_ne_zero hc
    have hpos_ne : series.filter (fun x => decide (0 < x)) ≠ [] := by
      obtain ⟨x, hx⟩ := List.exists_mem_of_ne_nil cls hne
      rw [hcls] at hx
      obtain ⟨i, hi, hxi⟩ := List.mem_map.mp hx
      have h2 := List.mem_filter.mp hi
      have h3 := of_decide_eq_true h2.2
      have h4 : i < series.length := List.mem_range.mp h2.1
      have h5 : series.getD i 0 ∈ series := getD_mem_of_lt series i h4 0
      have h6 : series.getD i 0 ∈ series.filter (fun x => decide (0 < x)) :=
        List.mem_filter.mpr ⟨h5, decide_eq_true h3.2⟩
      exact List.ne_nil_of_mem h6
    have hpos_mem : ∀ x ∈ series.filter (fun x => decide (0 < x)), 0 < x := by
      intro x hx
      exact of_decide_eq_true (List.mem_filter.mp hx).2
    have hpos_sum : 0 < (series.filter (fun x => decide (0 < x))).sum :=
      List.sum_pos _ hpos_mem hpos_ne
    have hdenom : 0 < ((max (series.filter (fun x => decide (0 < x))).length 1 : ℕ) : ℚ) := by
      have : 0 < max (series.filter (fun x => decide (0 < x))).length 1 := by omega
      exact_mod_cast this
    exact div_pos (div_pos hsum hlen) (div_pos hpos_sum hdenom)
  · rw [if_neg hc]
    norm_num

/-- Unfolding a successful `fit_and_forecast`: the forecast comes from
the pipeline model (the future Easter regressor is ignored because the
model stores no exogenous coefficient), the bands from its
`confidence_intervals`, and the coefficient fields from the model. -/
theorem fit_and_forecast_elim (series : List ℚ) (sy : ℤ) (sm fm : ℕ) (ue : Bool)
    (r : ForecastResult) (h : fit_and_forecast series sy sm fm ue = some r) :
    ∃ fc lu,
      (pipelineModel series sy sm ue).forecast fm = some fc ∧
      (pipelineModel series sy sm ue).confidence_intervals fm (80/100) = some lu ∧
      r.forecast = fc ∧ r.lower = lu.1 ∧ r.upper = lu.2 ∧
      r.seasonal_factors = (pipelineModel series sy sm ue).seasonal_factors ∧
      r.ar_coefficients = (pipelineModel series sy sm ue).ar_coeffs ∧
      r.ma_coefficients = (pipelineModel series sy sm ue).ma_coeffs := by
  simp only [fit_and_forecast] at h
  rw [show (if ue then (pipelineModel series sy sm ue).forecast_with_exog fm
      (some (futureEasterRegressor series.length sy sm fm))
      else (pipelineModel series sy sm ue).forecast fm)
      = (pipelineModel series sy sm ue).forecast fm by
    cases ue
    · rfl
    · simpa using forecast_with_exog_of_exog_nil (pipelineModel series sy sm true) fm _
        (pipelineModel_exog_coeffs series sy sm true)] at h
  cases hf : (pipelineModel series sy sm ue).forecast fm with
  | none => rw [hf] at h; cases h
  | some fc =>
    rw [hf] at h
    cases hc : (pipelineModel series sy sm ue).confidence_intervals fm (80/100) with
    | none => rw [hc] at h; cases h
    | some lu =>
      rw [hc] at h
      injection h with h2
      exact ⟨fc, lu, rfl, rfl, by rw [← h2], by rw [← h2], by rw [← h2], by rw [← h2],
        by rw [← h2], by rw [← h2]⟩

/-- Unfolding a successful `forecast` response: validation passed and
the output copies the `fit_and_forecast` result fields. -/
theorem forecast_ok_elim (input : ForecastInput) (out : ForecastOutput)
    (h : forecast input = some (ForecastResponse.ok out)) :
    ∃ r : ForecastResult,
      fit_and_forecast input.series input.start_year input.start_month input.forecast_months
        input.use_easter_regressor = some r ∧
      out.forecast = r.forecast ∧ out.lower = r.lower ∧ out.upper = r.upper ∧
      out.seasonal_factors = r.seasonal_factors ∧
      out.ar_coefficients = r.ar_coefficients ∧ out.ma_coefficients = r.ma_coefficients := by
  unfold forecast at h
  split_ifs at h with hs
  · simp at h
  · rw [Option.map_eq_some'] at h
    obtain ⟨r, hr, hro⟩ := h
    injection hro with h2
    exact ⟨r, hr, by rw [← h2], by rw [← h2], by rw [← h2], by rw [← h2], by rw [← h2],
      by rw [← h2]⟩

/-- A dot product against an all-zero coefficient vector vanishes. -/
theorem zeros_dot_sum (r : List ℚ) (p i : ℕ) :
    ((List.range i).map (fun j => (List.replicate p (0 : ℚ)).getD j 0 * r.getD (i - j) 0)).sum
      = 0 := by
  apply List.sum_eq_zero
  intro x hx
  obtain ⟨j, _, hxj⟩ := List.mem_map.mp hx
  rw [← hxj, replicate_zero_getD, zero_mul]

/-- On the autocorrelation `[1, 0, …, 0]` the Levinson–Durbin loop keeps
the all-zero coefficient vector and `v = 1` forever. -/
theorem ywGo_zeros (p : ℕ) :
    ∀ (fuel i : ℕ),
      ywGo (1 :: List.replicate p 0) p fuel i (List.replicate p 0) 1 = List.replicate p 0 := by
  intro fuel
  induction fuel with
  | zero => intro i; rfl
  | succ fuel ih =>
    intro i
    rw [ywGo]
    dsimp only
    by_cases hip : i < p
    · rw [if_pos hip]
      have hX : ((1 :: List.replicate p (0 : ℚ)).getD (i + 1) 0 -
          ((List.range i).map (fun j =>
            (List.replicate p (0 : ℚ)).getD j 0 *
              (1 :: List.replicate p (0 : ℚ)).getD (i - j) 0)).sum) / 1 = 0 := by
        rw [zeros_dot_sum]
        have h1 : (1 :: List.replicate p (0 : ℚ)).getD (i + 1) 0 = 0 := replicate_zero_getD p i
        rw [h1]
        norm_num
      rw [hX]
      have hphi : ((List.range (List.replicate p (0 : ℚ)).length).map (fun j =>
          if j < i then
            (List.replicate p (0 : ℚ)).getD j 0 - 0 * (List.replicate p (0 : ℚ)).getD (i - 1 - j) 0
          else if j = i then (0 : ℚ)
          else (List.replicate p (0 : ℚ)).getD j 0)) = List.replicate p 0 := by
        rw [List.length_replicate]
        have hzero : ∀ j ∈ List.range p, (if j < i then
            (List.replicate p (0 : ℚ)).getD j 0 - 0 * (List.replicate p (0 : ℚ)).getD (i - 1 - j) 0
          else if j = i then (0 : ℚ)
          else (List.replicate p (0 : ℚ)).getD j 0) = (fun _ => (0 : ℚ)) j := by
          intro j _
          split_ifs <;> simp [replicate_zero_getD]
        rw [List.map_congr_left hzero]
        simp [List.map_const']
      rw [hphi]
      rw [show (1 : ℚ) * (1 - 0 * 0) = 1 by norm_num]
      rw [if_neg (by norm_num)]
      exact ih (i + 1)
    · rw [if_neg hip]

/-- The seeded cumulative sum inverts one differencing pass: summing the
first differences of `a :: rest` from seed `a` reproduces `rest`. -/
theorem cumsumFrom_diffOnce (a : ℚ) (rest : List ℚ) :
    cumsumFrom a (List.zipWith (fun x y => x - y) rest (a :: rest)) = rest := by
  induction rest generalizing a with
  | nil => rfl
  | cons b t ih =>
    show (a + (b - a)) :: cumsumFrom (a + (b - a)) (List.zipWith (fun x y => x - y) t (b :: t))
        = b :: t
    rw [show a + (b - a) = b by ring, ih]

/-! ## The claims -/

/-- C6: `easter_sunday` applied to each year 2019 through 2027 returns
exactly (4,21), (4,12), (4,4), (4,17), (4,9), (3,31), (4,20), (4,5),
(3,28) in that order, and `easter_invoice_month` gives (2023,12) for
2024, (2025,1) for 2025 and (2026,1) for 2026. -/
theorem claim_C6_easter_calendar :
    easter_sunday 2019 = (4, 21) ∧ easter_sunday 2020 = (4, 12) ∧
    easter_sunday 2021 = (4, 4) ∧ easter_sunday 2022 = (4, 17) ∧
    easter_sunday 2023 = (4, 9) ∧ easter_sunday 2024 = (3, 31) ∧
    easter_sunday 2025 = (4, 20) ∧ easter_sunday 2026 = (4, 5) ∧
    easter_sunday 2027 = (3, 28) ∧
    easter_invoice_month 2024 = (2023, 12) ∧
    easter_invoice_month 2025 = (2025, 1) ∧
    easter_invoice_month 2026 = (2026, 1) := by
  decide

/-- C9 (counterexample): the sum of `create_easter_regressor(2024, 1, 24)`
is not 2 — the only covered invoice month inside the 24-month window is
January 2025, so the sum is 1. -/
theorem claim_C9_counterexample :
    ¬ ((create_easter_regressor 2024 1 24).sum = 2) := by
  with_unfolding_all decide

/-- C9 (amended): `create_easter_regressor(2024, 1, 24)` has length 24,
position 11 (December 2024) is 0, position 12 (January 2025) is 1,
position 13 (February 2025) is 0, and the sum over all 24 entries is 1
(January 2026, the invoice month of Easter 2026, is position 24 and
falls outside the window). -/
theorem claim_C9_amended :
    (create_easter_regressor 2024 1 24).length = 24 ∧
    (create_easter_regressor 2024 1 24).getD 11 0 = 0 ∧
    (create_easter_regressor 2024 1 24).getD 12 0 = 1 ∧
    (create_easter_regressor 2024 1 24).getD 13 0 = 0 ∧
    (create_easter_regressor 2024 1 24).sum = 1 := by
  with_unfolding_all decide

/-- C7: for `d = 1` and any series of length ≥ 2, first differencing
followed by the single seeded cumulative sum of `undifference` (seeded
from the first element, i.e. a one-element history) reproduces the
series from index 1 on exactly. -/
theorem claim_C7_difference_left_inverse (a : ℚ) (rest : List ℚ) (h : rest ≠ []) :
    undifference (difference (a :: rest) 1) [a] 1 = some rest := by
  have hne : List.zipWith (fun x y => x - y) rest (a :: rest) ≠ [] := by
    cases rest with
    | nil => exact absurd rfl h
    | cons b t => simp
  show undifference (List.zipWith (fun x y => x - y) rest (a :: rest)) [a] 1 = some rest
  rw [undifference, if_neg one_ne_zero]
  rw [undiffLoop, dif_pos (by norm_num : (0 : ℕ) < 1), if_pos ⟨by simp, hne⟩]
  rw [undiffLoop, dif_neg (by norm_num : ¬ (1 : ℕ) < 1)]
  have hanchor : ([a] : List ℚ).getD (([a] : List ℚ).length - 1 - (1 - 0 - 1)) 0 = a := rfl
  rw [hanchor, cumsumFrom_diffOnce]

/-- C7 witness: the concrete series `[10, 12, 15, 14, 18]`. -/
theorem claim_C7_witness :
    ([12, 15, 14, 18] : List ℚ) ≠ [] ∧
    undifference (difference ((10 : ℚ) :: [12, 15, 14, 18]) 1) [10] 1
      = some [12, 15, 14, 18] :=
  ⟨by simp, claim_C7_difference_left_inverse 10 [12, 15, 14, 18] (by simp)⟩

/-- C8: for every `p ≥ 1`, `solve_yule_walker` on the autocorrelation
vector `[1, 0, …, 0]` of length `p + 1` returns the all-zero AR
coefficient vector of length `p`. -/
theorem claim_C8_levinson_trivial (p : ℕ) (hp : 1 ≤ p) :
    solve_yule_walker ((1 : ℚ) :: List.replicate p 0) = List.replicate p 0 := by
  unfold solve_yule_walker
  rw [if_neg (by simp; omega)]
  dsimp only
  have hlen : ((1 : ℚ) :: List.replicate p 0).length - 1 = p := by simp
  rw [hlen]
  have hget : ((1 : ℚ) :: List.replicate p 0).getD 1 0 = 0 := replicate_zero_getD p 0
  rw [hget]
  rw [show (List.replicate p (0 : ℚ)).set 0 0 = List.replicate p 0 from List.set_replicate_self]
  rw [show (1 : ℚ) - 0 * 0 = 1 by norm_num]
  exact ywGo_zeros p p 1

/-- C8 witness: `p = 3`. -/
theorem claim_C8_witness :
    (1 : ℕ) ≤ 3 ∧
    solve_yule_walker ((1 : ℚ) :: List.replicate 3 0) = List.replicate 3 0 :=
  ⟨by norm_num, claim_C8_levinson_trivial 3 (by norm_num)⟩

/-- C10: every factor returned by `calculate_seasonal_factors` is
strictly positive (1 when the position has no strictly positive
observations, else a ratio of strictly positive means), so the
`factor > 0` guard in `deseasonalize` always takes the division branch
on factors produced by this function. -/
theorem claim_C10_seasonal_factors_pos (s t : List ℚ) (period k i : ℕ)
    (hk : k < period) (hi : i < t.length) :
    0 < (calculate_seasonal_factors s period).getD k 0 ∧
    (deseasonalize t (calculate_seasonal_factors s period)).getD i 0 =
      t.getD i 0 / (calculate_seasonal_factors s period).getD (i % period) 0 := by
  refine ⟨calculate_seasonal_factors_getD_pos s period k hk, ?_⟩
  unfold deseasonalize
  rw [rangeMap_getD _ _ _ hi]
  dsimp only
  rw [calculate_seasonal_factors_length]
  rw [if_pos (calculate_seasonal_factors_getD_pos s period (i % period)
    (Nat.mod_lt _ (by omega)))]

/-- C10 witness: factors of `[1, 2, 3, 4]` with period 2, applied to
`[10, 20]` at position 1. -/
theorem claim_C10_witness :
    (0 : ℕ) < 2 ∧ (1 : ℕ) < ([10, 20] : List ℚ).length ∧
    (0 < (calculate_seasonal_factors [1, 2, 3, 4] 2).getD 0 0 ∧
      (deseasonalize [10, 20] (calculate_seasonal_factors [1, 2, 3, 4] 2)).getD 1 0 =
        ([10, 20] : List ℚ).getD 1 0 /
          (calculate_seasonal_factors [1, 2, 3, 4] 2).getD (1 % 2) 0) :=
  ⟨by norm_num, by decide,
    claim_C10_seasonal_factors_pos [1, 2, 3, 4] [10, 20] 2 0 1 (by norm_num) (by decide)⟩

set_option maxRecDepth 100000

/-- C1 (failing evaluation): for the request `c1Input`
(`use_easter_regressor = true`, series all ones except a 2 at the
Easter-2025 invoice month, horizon 12), the mean-difference coefficient
is 1 and the future regressor is 1 at step 7 (January 2026), yet the
pipeline model stores no exogenous coefficient — `fit_and_forecast`
regresses Easter out itself and then fits without the regressor — so
the add-back loop in `forecast_with_exog` is skipped and the point
forecast at step 7 stays 1 instead of `1 + 1·1 = 2`. -/
theorem claim_C1_easter_addback_dead :
    forecast c1Input = some (ForecastResponse.ok c1Output) ∧
    (pipelineModel c1Series 2024 1 true).exog_coeffs = [] ∧
    (easterAdjust c1Series 2024 1 true).1 = 1 ∧
    (futureEasterRegressor 16 2024 1 12).getD 7 0 = 1 ∧
    c1Output.forecast.getD 7 0 = 1 := by
  refine ⟨by with_unfolding_all decide, rfl, by with_unfolding_all decide,
    by with_unfolding_all decide, by with_unfolding_all decide⟩

/-- C2 (counterexample): the valid request `c2BadInput` asks for AR
order `p = 3`, but the success response carries `ar_coefficients` of
length 2 — `fit_and_forecast` always builds `Arima::new(2, 1, 1, 12)`
and ignores the requested orders. -/
theorem claim_C2_counterexample :
    forecast c2BadInput = some (ForecastResponse.ok c2BadOutput) ∧
    c2BadOutput.ar_coefficients.length ≠ c2BadInput.p := by
  refine ⟨by with_unfolding_all decide, by decide⟩

/-- C2 (amended): every success response carries `seasonal_factors` of
length 12, `ar_coefficients` of length 2 and `ma_coefficients` of
length 1 — the fixed model orders — which equal the requested
`seasonal_period`, `p` and `q` exactly when the request keeps the
defaults. -/
theorem claim_C2_amended (input : ForecastInput) (out : ForecastOutput)
    (h : forecast input = some (ForecastResponse.ok out)) :
    out.seasonal_factors.length = 12 ∧ out.ar_coefficients.length = 2 ∧
    out.ma_coefficients.length = 1 := by
  obtain ⟨r, hr, _, _, _, hsf, har, hma⟩ := forecast_ok_elim input out h
  obtain ⟨fc, lu, _, _, _, _, _, hrs, hra, hrm⟩ := fit_and_forecast_elim _ _ _ _ _ _ hr
  refine ⟨?_, ?_, ?_⟩
  · rw [hsf, hrs, pipelineModel_seasonal_factors, calculate_seasonal_factors_length]
  · rw [har, hra, pipelineModel_ar_length]
  · rw [hma, hrm, pipelineModel_ma_length]

/-- C2 witness: the default-orders request `c2Input` succeeds and its
response has the three coefficient-vector lengths 12, 2 and 1. -/
theorem claim_C2_witness :
    forecast c2Input = some (ForecastResponse.ok c2Output) ∧
    (c2Output.seasonal_factors.length = 12 ∧ c2Output.ar_coefficients.length = 2 ∧
      c2Output.ma_coefficients.length = 1) := by
  have h : forecast c2Input = some (ForecastResponse.ok c2Output) := by
    with_unfolding_all decide
  exact ⟨h, claim_C2_amended c2Input c2Output h⟩

/-- C3 (failing evaluation): the valid request `c3Input` with
`forecast_months = 0` reaches no response — with `d = 1` and an empty
differenced forecast, `undifference` reads `result[0]` of an empty
vector, an out-of-bounds panic modelled by `none`. -/
theorem claim_C3_zero_horizon_panics : forecast c3Input = none := by
  with_unfolding_all decide

/-- C4: a forecast request is answered with the single top-level error
"Series too short for specified ARIMA parameters" exactly when the
series is strictly shorter than `p + d + q + seasonal_period`; in
particular a series of exactly that length is not rejected by this
validation. -/
theorem claim_C4_validation (input : ForecastInput) :
    forecast input
        = some (ForecastResponse.error "Series too short for specified ARIMA parameters")
      ↔ input.series.length < input.p + input.d + input.q + input.seasonal_period := by
  unfold forecast
  split_ifs with hs
  · simp [hs]
  · refine iff_of_false ?_ hs
    intro hcon
    rw [Option.map_eq_some'] at hcon
    obtain ⟨r, _, hro⟩ := hcon
    cases hro

/-- C5: for every request whose pipeline reaches a success response and
every index into the response vectors, the point forecast and the lower
band are nonnegative and the upper band dominates the point forecast.
(The recomputed interval forecast coincides with the response forecast
because the model stores no exogenous coefficient, and the half-width
is nonnegative since the z-score, the residual RMS and the seasonal
factors all are.) -/
theorem claim_C5_bounds (input : ForecastInput) (out : ForecastOutput) (i : ℕ)
    (h : forecast input = some (ForecastResponse.ok out)) (hi : i < out.forecast.length) :
    0 ≤ out.forecast.getD i 0 ∧ 0 ≤ out.lower.getD i 0 ∧
    out.forecast.getD i 0 ≤ out.upper.getD i 0 := by
  obtain ⟨r, hr, hof, holo, houp, _, _, _⟩ := forecast_ok_elim input out h
  obtain ⟨fc, lu, hfc, hci, hrf, hrl, hru, _, _, _⟩ := fit_and_forecast_elim _ _ _ _ _ _ hr
  obtain ⟨fc2, hfc2, hl, hu⟩ := confidence_intervals_elim _ _ _ _ hci
  rw [hfc] at hfc2
  injection hfc2 with he
  subst he
  have hilen : i < fc.length := by rw [hof, hrf] at hi; exact hi
  refine ⟨?_, ?_, ?_⟩
  · rw [hof, hrf]
    exact forecast_with_exog_getD_nonneg _ _ none fc hfc i hilen
  · rw [holo, hrl, hl, rangeMap_getD _ _ _ hilen]
    exact le_max_right _ 0
  · rw [houp, hru, hu, hof, hrf, rangeMap_getD _ _ _ hilen]
    have hw : 0 ≤ intervalWidth
        (pipelineModel input.series input.start_year input.start_month
          input.use_easter_regressor) (zscore (80/100)) i := by
      apply intervalWidth_nonneg
      · exact (zscore_pos _).le
      · rw [pipelineModel_seasonal_period, pipelineModel_seasonal_factors]
        exact (calculate_seasonal_factors_getD_pos _ 12 _ (Nat.mod_lt _ (by norm_num))).le
    exact le_add_of_nonneg_right hw

/-- C5 witness: the concrete request `c5Input` at index 0. -/
theorem claim_C5_witness :
    forecast c5Input = some (ForecastResponse.ok c5Output) ∧
    0 < c5Output.forecast.length ∧
    (0 ≤ c5Output.forecast.getD 0 0 ∧ 0 ≤ c5Output.lower.getD 0 0 ∧
      c5Output.forecast.getD 0 0 ≤ c5Output.upper.getD 0 0) := by
  have h : forecast c5Input = some (ForecastResponse.ok c5Output) := by
    with_unfolding_all decide
  have hlen : 0 < c5Output.forecast.length := by decide
  exact ⟨h, hlen, claim_C5_bounds c5Input c5Output 0 h hlen⟩
